import Mathlib

/-!
# Verification of the markdown-brain document index and query engine

Shallow embedding of `src/index.ts` (class `MarkdownBrainServer`).

Modelling conventions:
* JS numbers are modelled as exact values: timestamps (`Date.getTime()`) as `Int`,
  similarity scores as `ℚ`.  The JS `NaN` produced by `0/0` is modelled as `none`
  in an `Option`-valued result (every comparison against `NaN` is false, and a
  sort comparator returning `NaN` is treated as `0` by the runtime).
* The JS `Map` (`this.documents`) is modelled as a `List Document` in insertion
  order: `Map.set` replaces in place for an existing key and appends otherwise,
  and iteration follows insertion order.
* External collaborators (markdown renderer, front-matter parser, word tokenizer,
  the `Date` constructor, the fuzzy matcher `Fuse`) are not part of the source
  tree; where a claim depends on them they are modelled from the spec, each with
  a doc comment saying so.
-/

namespace MarkdownBrain

/-- The `Document` interface of `src/index.ts` (lines 17-25).
`frontmatter` is an open map; only the `tags` field is consumed downstream, so
it is modelled by `tags`.  `lastModified` is the filesystem mtime as an epoch
timestamp (`Date`, compared via `getTime()`), `tokens` the optional token list
(`tokens?: string[]`). -/
structure Document where
  id : String
  path : String
  title : String
  content : String
  tags : List String
  lastModified : Int
  tokens : Option (List String)
deriving DecidableEq, Repr

/-- Modelled from the spec: the excluded external collaborators (markdown
renderer `render(markdown) -> plaintext`, front-matter parser
`parse(raw) -> (metadata, body)`, filesystem `stat`) deliver, for a successful
file read, the parsed front-matter `title`/`tags`, the rendered plain text and
the mtime.  A failed read (file vanished, permission error) delivers nothing. -/
structure FileRead where
  fmTitle : Option String
  fmTags : List String
  plainText : String
  mtime : Int
deriving DecidableEq, Repr

/-- Leading-segment test on character lists (a structural model of the string
operation, so that the kernel can evaluate it on concrete inputs). -/
def charsLead : List Char → List Char → Bool
  | [], _ => true
  | _ :: _, [] => false
  | a :: as, b :: bs => a = b && charsLead as bs

/-- Split a character list at a separator character (structural model of the
string split used by the path and date helpers). -/
def splitChar (sep : Char) : List Char → List Char → List (List Char)
  | [], acc => [acc.reverse]
  | c :: cs, acc =>
    if c = sep then acc.reverse :: splitChar sep cs []
    else splitChar sep cs (c :: acc)

/-- `toLowerCase()`, character by character. -/
def lowerStr (s : String) : String :=
  String.mk (s.data.map Char.toLower)

/-- Modelled from the spec (§4.1): the external word tokenizer
(`natural.WordTokenizer`) — a word-boundary split of the text; empty words are
dropped. -/
def tokenize (s : String) : List String :=
  ((splitChar ' ' s.data []).map String.mk).filter (fun w => decide (w ≠ ""))

/-- `path.relative(this.docsPath, filePath)` for a file below the root:
strips the root and the separator. -/
def relativeId (docsPath filePath : String) : String :=
  if charsLead (docsPath ++ "/").data filePath.data then
    filePath.drop (docsPath.length + 1)
  else filePath

/-- `path.basename(filePath)`: the last `/`-separated component. -/
def baseName (p : String) : String :=
  String.mk (((splitChar '/' p.data []).getLast?).getD p.data)

/-- `path.basename(filePath, '.md')`: the basename with a trailing `.md`
removed. -/
def stripMdExt (s : String) : String :=
  if charsLead ".md".data.reverse s.data.reverse then
    String.mk (s.data.take (s.data.length - 3))
  else s

/-- Title fallback of `loadDocument` (line 110-111): the basename without the
`.md` extension, every hyphen replaced by a space. -/
def defaultTitle (p : String) : String :=
  String.mk ((stripMdExt (baseName p)).data.map (fun c => if c = '-' then ' ' else c))

/-- The `Document` record built by a successful `loadDocument` (lines 109-124):
id is the root-relative path, title comes from the front matter with the
filename fallback, content is the rendered plain text, tokens the lower-cased
tokenization. -/
def buildDoc (docsPath filePath : String) (fr : FileRead) : Document :=
  { id := relativeId docsPath filePath
    path := filePath
    title := fr.fmTitle.getD (defaultTitle filePath)
    content := fr.plainText
    tags := fr.fmTags
    lastModified := fr.mtime
    tokens := some (tokenize (lowerStr fr.plainText)) }

/-- `this.documents.set(id, doc)` (line 126): a JS `Map.set` replaces the value
in place for an existing key and appends a new entry otherwise. -/
def mapSet (store : List Document) (doc : Document) : List Document :=
  if store.any (fun d => decide (d.id = doc.id)) then
    store.map (fun d => if d.id = doc.id then doc else d)
  else store ++ [doc]

/-- `loadDocument` (lines 103-131): on a successful read the fresh record is
`Map.set` into the store; the `catch` branch (line 128-130) only calls
`console.error` and leaves the store untouched. -/
def loadDocument (docsPath : String) (store : List Document) (filePath : String)
    (readResult : Option FileRead) : List Document :=
  match readResult with
  | none => store
  | some fr => mapSet store (buildDoc docsPath filePath fr)

/-! ## Search index configuration (`rebuildSearchIndex`, lines 138-152) -/

/-- One entry of the `keys` option passed to the `Fuse` constructor. -/
structure FuseKeyWeight where
  name : String
  weight : ℚ
deriving DecidableEq, Repr

/-- The options object passed to the `Fuse` constructor. -/
structure SearchIndexConfig where
  keys : List FuseKeyWeight
  includeScore : Bool
  threshold : ℚ
  ignoreLocation : Bool
  useExtendedSearch : Bool
deriving DecidableEq, Repr

/-- `rebuildSearchIndex` (lines 138-152): builds a fresh `Fuse` index over the
current store snapshot with the literal configuration of the source. -/
def rebuildSearchIndex (docs : List Document) : SearchIndexConfig × List Document :=
  ({ keys :=
      [ ⟨"title", 3/10⟩
      , ⟨"content", 5/10⟩
      , ⟨"frontmatter.tags", 2/10⟩ ]
     includeScore := true
     threshold := 4/10
     ignoreLocation := true
     useExtendedSearch := true }, docs)

/-- The weight the index configuration assigns to a field name. -/
def weightOf (cfg : SearchIndexConfig) (field : String) : Option ℚ :=
  (cfg.keys.find? (fun k => decide (k.name = field))).map (fun k => k.weight)

/-! ## Similarity engine (`calculateSimilarity`, lines 420-430) -/

/-- `calculateSimilarity` (lines 420-430).  A missing `tokens` field returns
`0`.  Otherwise the token lists become JS `Set`s and the result is
`intersection.size / union.size`.  When both token lists are empty (an empty
JS array is truthy, so the guard does not fire) the JS division `0/0` yields
`NaN`, modelled as `none`; every other outcome is `some` of the exact
rational. -/
def calculateSimilarity (doc1 doc2 : Document) : Option ℚ :=
  match doc1.tokens, doc2.tokens with
  | some t1, some t2 =>
    let set1 := t1.toFinset
    let set2 := t2.toFinset
    let inter := set1 ∩ set2
    let uni := set1 ∪ set2
    if uni.card = 0 then none
    else some ((inter.card : ℚ) / (uni.card : ℚ))
  | _, _ => some 0

/-! ## findSimilar (`findSimilarDocuments`, lines 384-418) -/

/-- One entry of the `scores` array of `findSimilarDocuments` (line 398):
`{ id, score, title }`.  The score is the (possibly `NaN`) similarity. -/
structure SimilarityEntry where
  id : String
  score : Option ℚ
  title : String
deriving DecidableEq, Repr

/-- The sort comparator `(a, b) => b.score - a.score` (line 407), as the
"may stay in this order" relation used by the runtime's stable sort: `a` may
precede `b` iff the comparator does not return a positive number.  A `NaN`
difference is treated as `0` by the runtime, so a `NaN` score compares as equal
to everything. -/
def scoreLEb (a b : Option ℚ) : Bool :=
  match a, b with
  | some x, some y => decide (y ≤ x)
  | _, _ => true

/-- The comparator relation on score entries, for the stable sort. -/
def entRel (a b : SimilarityEntry) : Prop := scoreLEb a.score b.score = true

instance : DecidableRel entRel := fun a b => instDecidableEqBool _ _

/-- The `scores` array built by the loop of lines 400-405: every store entry in
iteration order except the target id, scored against the target. -/
def scoresFor (store : List Document) (target : Document) (id : String) :
    List SimilarityEntry :=
  (store.filter (fun d => decide (d.id ≠ id))).map
    (fun d => ⟨d.id, calculateSimilarity target d, d.title⟩)

/-- JS `Array.prototype.slice(0, n)`: a nonnegative end index truncates to the
first `n` elements; a negative one counts from the end of the array. -/
def jsSliceTo (l : List α) (n : Int) : List α :=
  if 0 ≤ n then l.take n.toNat else l.take (l.length - (-n).toNat)

/-- Outcome of `findSimilarDocuments`: the not-found text reply (lines 388-396)
or the formatted top results (lines 410-417). -/
inductive FindSimilarOutcome where
  | notFound (id : String)
  | results (entries : List SimilarityEntry)
deriving DecidableEq, Repr

/-- `findSimilarDocuments` (lines 384-418): look the target up, score every
other store entry, sort descending by score with the runtime's stable sort,
and keep the first `limit` entries. -/
def findSimilarDocuments (store : List Document) (id : String) (limit : Int) :
    FindSimilarOutcome :=
  match store.find? (fun d => decide (d.id = id)) with
  | none => .notFound id
  | some target =>
    let scores := scoresFor store target id
    let sorted := scores.insertionSort entRel
    .results (jsSliceTo sorted limit)

/-! ## search_documents (`searchDocuments`, lines 295-325, and the dispatcher,
lines 267-292) -/

/-- One formatted result of `searchDocuments` (lines 309-315). -/
structure SearchResultEntry where
  id : String
  title : String
  score : Option ℚ
  excerpt : String
  tags : List String
deriving DecidableEq, Repr

/-- Outcome of `searchDocuments`: the "No documents loaded yet" reply when no
index has been built (lines 296-305), or the formatted result list. -/
inductive SearchOutcome where
  | notReady
  | results (rs : List SearchResultEntry)
deriving DecidableEq, Repr

/-- The number of results carried by an outcome (`none` for the not-ready
reply). -/
def SearchOutcome.resultCount : SearchOutcome → Option Nat
  | .notReady => none
  | .results rs => some rs.length

/-- Modelled from the spec (§4.4): the external fuzzy matcher (`Fuse`) applied
with the `limit` option — the ranked match list for the query is truncated to
`limit` entries when `limit` exceeds `-1` and returned whole otherwise. -/
def fuseApplyLimit (ms : List α) (limit : Int) : List α :=
  if -1 < limit then ms.take limit.toNat else ms

/-- The result formatting of `searchDocuments` (lines 309-315): id, title,
score, a 200-character excerpt, and the front-matter tags. -/
def formatSearchResult (m : Document × ℚ) : SearchResultEntry :=
  ⟨m.1.id, m.1.title, some m.2, m.1.content.take 200 ++ "...", m.1.tags⟩

/-- `searchDocuments` (lines 295-325).  `fuseMatches` stands for the ranked
match list `this.fuse.search(query)` would produce before the `limit` option is
applied (`none` when `this.fuse` is still null). -/
def searchDocuments (fuseMatches : Option (List (Document × ℚ))) (limit : Int) :
    SearchOutcome :=
  match fuseMatches with
  | none => .notReady
  | some ms => .results ((fuseApplyLimit ms limit).map formatSearchResult)

/-- The dispatcher's argument coercion `args.limit as number || 5` (line 275):
an absent argument, and also a `0` argument (JS `0` is falsy), fall back to the
default. -/
def jsNumOr (v : Option Int) (dflt : Int) : Int :=
  match v with
  | some n => if n = 0 then dflt else n
  | none => dflt

/-- The `search_documents` tool handler (line 274-275 feeding lines 295-325). -/
def handleSearchDocuments (fuseMatches : Option (List (Document × ℚ)))
    (limitArg : Option Int) : SearchOutcome :=
  searchDocuments fuseMatches (jsNumOr limitArg 5)

/-! ## search_by_date (`searchByDate`, lines 432-462) -/

/-- Digit-sequence parser for the date components (structural, so the kernel
can evaluate it). -/
def parseDigitsAux : List Char → Nat → Option Nat
  | [], acc => some acc
  | c :: cs, acc =>
    if c.isDigit then parseDigitsAux cs (10 * acc + (c.toNat - '0'.toNat))
    else none

/-- A non-empty all-digit character list as a number, `none` otherwise. -/
def parseDigits : List Char → Option Nat
  | [] => none
  | c :: cs => parseDigitsAux (c :: cs) 0

/-- Modelled from the spec (§6: "after: ISO date, before: ISO date"): the JS
`Date` constructor applied to an ISO `YYYY-MM-DD` string, on a totally ordered
integer timestamp scale; a malformed string yields an invalid date whose
timestamp is `NaN`, modelled as `none`. -/
def jsNewDate (s : String) : Option Int :=
  match (splitChar '-' s.data []).map parseDigits with
  | [some y, some m, some d] =>
    if 1 ≤ m ∧ m ≤ 12 ∧ 1 ≤ d ∧ d ≤ 31 then some ((y * 10000 + m * 100 + d : Nat) : Int)
    else none
  | _ => none

/-- One formatted result of `searchByDate` (lines 447-452). -/
structure DateResult where
  id : String
  title : String
  lastModified : Int
  excerpt : String
deriving DecidableEq, Repr

/-- The result formatting of `searchByDate` (lines 447-452): id, title, mtime
and a 150-character excerpt. -/
def dateEntry (d : Document) : DateResult :=
  ⟨d.id, d.title, d.lastModified, d.content.take 150 ++ "..."⟩

/-- The sort comparator of line 445,
`(a, b) => b.lastModified.getTime() - a.lastModified.getTime()`, as the
"may precede" relation of the runtime's stable sort: descending by mtime. -/
def dateDesc (a b : Document) : Prop := b.lastModified ≤ a.lastModified

instance : DecidableRel dateDesc := fun a b => Int.decLe _ _

instance : IsTotal Document dateDesc := ⟨fun a b => Int.le_total b.lastModified a.lastModified⟩

instance : IsTrans Document dateDesc := ⟨fun _ _ _ h1 h2 => le_trans h2 h1⟩

/-- The `if (after) { ... }` block of lines 435-438.  `if (after)` is a JS
truthiness test, so an absent or empty argument skips the filter; a well-formed
date filters by the strict comparison `doc.lastModified > afterDate`; a
malformed one produces an invalid date whose comparisons are all false, so the
filter drops everything. -/
def applyAfterFilter (docs : List Document) (after : Option String) :
    List Document :=
  match after with
  | none => docs
  | some s =>
    if s = "" then docs else
      match jsNewDate s with
      | some t => docs.filter (fun d => decide (t < d.lastModified))
      | none => docs.filter (fun _ => false)

/-- The `if (before) { ... }` block of lines 440-443, filtering by the strict
comparison `doc.lastModified < beforeDate`; same truthiness and invalid-date
behaviour as the `after` block. -/
def applyBeforeFilter (docs : List Document) (before : Option String) :
    List Document :=
  match before with
  | none => docs
  | some s =>
    if s = "" then docs else
      match jsNewDate s with
      | some t => docs.filter (fun d => decide (d.lastModified < t))
      | none => docs.filter (fun _ => false)

/-- `searchByDate` (lines 432-462): both date filters in order, then the
stable descending sort by mtime (line 445), then formatting. -/
def searchByDate (store : List Document) (after before : Option String) :
    List DateResult :=
  ((applyBeforeFilter (applyAfterFilter store after) before).insertionSort
    dateDesc).map dateEntry

/-! ## The filesystem watcher (`watchDocuments`, lines 154-177)

The `add`/`change` handlers are `async path => { await loadDocument(path);
rebuildSearchIndex() }`.  `loadDocument` suspends at `await fs.readFile`
(line 105, delivering the content) and again at `await fs.stat` (line 107,
delivering the mtime), and only then runs the synchronous `Map.set`; nothing
serializes two in-flight handlers for the same path and no per-id version is
checked.  The model keeps one watched file: a handler task captures the
current file content when its read resolves, captures the current mtime and
synchronously commits when its stat resolves, and may fail (the `catch` of
line 128, which only logs) at either await if the file is gone.  The
scheduler may interleave tasks arbitrarily between awaits — a subset of the
interleavings the Node event loop allows. -/

/-- The content-derived part of a file read: what `fs.readFile` plus the
front-matter parse and markdown rendering deliver. -/
structure FileContent where
  fmTitle : Option String
  fmTags : List String
  plainText : String
deriving DecidableEq, Repr

/-- The full on-disk state of the watched file: content and mtime. -/
structure FileState where
  content : FileContent
  mtime : Int
deriving DecidableEq, Repr

/-- Progress of one in-flight `add`/`change` handler: before the `readFile`
await resolves, between `readFile` and `stat` (holding the captured content),
or done. -/
inductive TaskPhase where
  | reading
  | statting (c : FileContent)
  | finished
deriving DecidableEq, Repr

/-- The on-disk state of the watched file, the document store, and the
in-flight handler tasks (oldest first). -/
structure WatchState where
  file : Option FileState
  store : List Document
  tasks : List TaskPhase
deriving DecidableEq, Repr

/-- One scheduler step: an external filesystem mutation, the delivery of a
watcher event (spawning an `add`/`change` handler, or the synchronous
`unlink` handler of lines 171-176), or the resolution of an in-flight
handler's pending await. -/
inductive WatchAction where
  | modifyFile (fs : FileState)
  | removeFile
  | spawnHandler
  | unlinkHandler
  | stepTask (i : Nat)
deriving DecidableEq, Repr

/-- The small-step semantics of the watcher for one document path.
`stepTask i` resolves task `i`'s pending await: a `reading` task captures the
current file content (a missing file makes the read throw; the `catch` only
logs and the task ends without writing); a `statting` task reads the current
mtime and synchronously commits the record via `loadDocument` (a missing file
makes the stat throw, again merely logged). -/
def stepWatch (docsPath filePath : String) (s : WatchState) (a : WatchAction) :
    WatchState :=
  match a with
  | .modifyFile fs => { s with file := some fs }
  | .removeFile => { s with file := none }
  | .spawnHandler => { s with tasks := s.tasks ++ [.reading] }
  | .unlinkHandler =>
    { s with store := s.store.filter (fun d => decide (d.id ≠ relativeId docsPath filePath)) }
  | .stepTask i =>
    match s.tasks.get? i with
    | some .reading =>
      match s.file with
      | none => { s with tasks := s.tasks.set i .finished }
      | some fs => { s with tasks := s.tasks.set i (.statting fs.content) }
    | some (.statting c) =>
      match s.file with
      | none => { s with tasks := s.tasks.set i .finished }
      | some fs =>
        { s with
            store := loadDocument docsPath s.store filePath
              (some ⟨c.fmTitle, c.fmTags, c.plainText, fs.mtime⟩)
            tasks := s.tasks.set i .finished }
    | _ => s

/-- Run the watcher model over a schedule of steps. -/
def runWatch (docsPath filePath : String) (init : WatchState)
    (as : List WatchAction) : WatchState :=
  as.foldl (stepWatch docsPath filePath) init

/-! ## Concrete documents used by the witnesses and counterexamples -/

/-- A document whose token set is `{alpha, beta}`. -/
def docAlphaBeta : Document :=
  ⟨"ab.md", "docs/ab.md", "ab", "alpha beta", [], 1, some ["alpha", "beta"]⟩

/-- A document whose token set is `{alpha, gamma}`. -/
def docAlphaGamma : Document :=
  ⟨"ag.md", "docs/ag.md", "ag", "alpha gamma", [], 2, some ["alpha", "gamma"]⟩

/-- A document with an empty (but present) token list, as produced for a file
with no textual content. -/
def docEmptyTokens1 : Document :=
  ⟨"e1.md", "docs/e1.md", "e1", "", [], 3, some []⟩

/-- A second document with an empty token list. -/
def docEmptyTokens2 : Document :=
  ⟨"e2.md", "docs/e2.md", "e2", "", [], 4, some []⟩

/-- A document last modified on 2024-01-15. -/
def docJan : Document :=
  ⟨"jan.md", "docs/jan.md", "jan", "january note", [], 20240115, some ["january", "note"]⟩

/-- A document last modified on 2024-02-15. -/
def docFeb : Document :=
  ⟨"feb.md", "docs/feb.md", "feb", "february note", [], 20240215, some ["february", "note"]⟩

/-- A document last modified on 2024-03-15. -/
def docMar : Document :=
  ⟨"mar.md", "docs/mar.md", "mar", "march note", [], 20240315, some ["march", "note"]⟩

/-! ## C2 — search index field weights -/

/-- **C2, counterexample.**  The claim says the title field gets the highest
weight of every rebuild; in the source configuration the title weight (`0.3`)
is strictly below the body-text weight (`0.5`). -/
theorem c2_counterexample :
    weightOf (rebuildSearchIndex []).1 "title" = some (3/10)
    ∧ weightOf (rebuildSearchIndex []).1 "content" = some (5/10)
    ∧ (3/10 : ℚ) < 5/10 := by
  refine ⟨rfl, rfl, by norm_num⟩

/-- **C2, amended.**  For every rebuild, regardless of the document set, the
body-text field carries the highest weight (`0.5`), the title field the middle
weight (`0.3`) and the tags field the lowest weight (`0.2`). -/
theorem c2_amended (docs : List Document) :
    weightOf (rebuildSearchIndex docs).1 "content" = some (5/10)
    ∧ weightOf (rebuildSearchIndex docs).1 "title" = some (3/10)
    ∧ weightOf (rebuildSearchIndex docs).1 "frontmatter.tags" = some (2/10)
    ∧ (2/10 : ℚ) < 3/10 ∧ (3/10 : ℚ) < 5/10 := by
  refine ⟨rfl, rfl, rfl, by norm_num, by norm_num⟩

/-! ## C3 — a failed read is not equivalent to a removed event -/

/-- **C3, counterexample.**  The claim says a failed read leaves the store
with no record for the id.  A store holding a record for `jan.md` is fed a
failed read of that very file: the `catch` of `loadDocument` only logs, so the
store still holds the old record afterwards. -/
theorem c3_counterexample :
    (loadDocument "docs" [docJan] "docs/jan.md" none).find?
        (fun d => decide (d.id = "jan.md")) = some docJan := by
  rfl

/-- **C3, amended.**  A failed read is logged and non-fatal, but it is a no-op
on the Document Store, not a removed event: the store is returned unchanged,
so a previously stored record for the id survives. -/
theorem c3_amended (docsPath : String) (store : List Document) (filePath : String) :
    loadDocument docsPath store filePath none = store := rfl

/-- **C2, witness for the amended theorem** at the empty document set. -/
theorem c2_amended_witness :
    weightOf (rebuildSearchIndex []).1 "content" = some (5/10)
    ∧ weightOf (rebuildSearchIndex []).1 "title" = some (3/10)
    ∧ weightOf (rebuildSearchIndex []).1 "frontmatter.tags" = some (2/10)
    ∧ (2/10 : ℚ) < 3/10 ∧ (3/10 : ℚ) < 5/10 :=
  c2_amended []

/-- **C3, witness for the amended theorem** at a one-document store. -/
theorem c3_amended_witness :
    loadDocument "docs" [docJan] "docs/jan.md" none = [docJan] :=
  c3_amended "docs" [docJan] "docs/jan.md"

/-! ## C4 — malformed dates in search_by_date -/

/-- **C4, counterexample.**  The claim says a malformed date is rejected with
an input-validation error rather than yielding an ordinary (possibly empty)
result list.  With a malformed `after` (or `before`) the operation returns the
ordinary empty result list, while the same store queried without bounds does
return its document: nothing is rejected. -/
theorem c4_counterexample :
    searchByDate [docJan] (some "not-a-date") none = []
    ∧ searchByDate [docJan] none (some "not-a-date") = []
    ∧ searchByDate [docJan] none none = [dateEntry docJan] := by
  refine ⟨rfl, rfl, rfl⟩

/-- **C4, amended.**  A malformed `after` or `before` string is not rejected:
`new Date` turns it into an invalid date whose comparisons are all false, so
the corresponding filter eliminates every document and the operation returns
an ordinary empty result list (no crash, no error). -/
theorem c4_amended (store : List Document) (s : String)
    (hmal : jsNewDate s = none) (hne : s ≠ "") :
    searchByDate store (some s) none = []
    ∧ searchByDate store none (some s) = [] := by
  constructor
  · show ((applyBeforeFilter (applyAfterFilter store (some s)) none).insertionSort
      dateDesc).map dateEntry = []
    have h1 : applyAfterFilter store (some s) = [] := by
      simp only [applyAfterFilter, if_neg hne, hmal]
      exact List.filter_eq_nil_iff.mpr (fun a _ => by simp)
    rw [h1]
    rfl
  · show ((applyBeforeFilter (applyAfterFilter store none) (some s)).insertionSort
      dateDesc).map dateEntry = []
    have h1 : applyBeforeFilter store (some s) = [] := by
      simp only [applyBeforeFilter, if_neg hne, hmal]
      exact List.filter_eq_nil_iff.mpr (fun a _ => by simp)
    show ((applyBeforeFilter store (some s)).insertionSort dateDesc).map dateEntry = []
    rw [h1]
    rfl

/-- **C4, witness for the amended theorem** at the store `[docJan]` and the
malformed string `"not-a-date"`. -/
theorem c4_amended_witness :
    searchByDate [docJan] (some "not-a-date") none = []
    ∧ searchByDate [docJan] none (some "not-a-date") = [] :=
  c4_amended [docJan] "not-a-date" rfl (by decide)

/-! ## C5 — the limit argument of search_documents -/

/-- Six ranked matches, standing for the output of the fuzzy matcher on a
query matching six documents. -/
def ms6 : List (Document × ℚ) :=
  [(docAlphaBeta, 1/100), (docAlphaGamma, 2/100), (docEmptyTokens1, 3/100),
   (docEmptyTokens2, 4/100), (docJan, 5/100), (docFeb, 6/100)]

/-- **C5, counterexample.**  The claim says a limit of `0` yields an
input-validation error.  Instead the dispatcher's `args.limit as number || 5`
treats `0` as falsy: the call returns an ordinary result list of five entries
(the default limit). -/
theorem c5_counterexample :
    (handleSearchDocuments (some ms6) (some 0)).resultCount = some 5 := rfl

/-- **C5, amended.**  A limit of `0` is not rejected but coerced to the
default `5`; a negative limit is passed through and the matcher returns the
whole match list untruncated; only the positive-limit half of the claim holds:
at most `limit` results are returned. -/
theorem c5_amended :
    (∀ fm : Option (List (Document × ℚ)),
      handleSearchDocuments fm (some 0) = handleSearchDocuments fm none)
    ∧ (∀ (ms : List (Document × ℚ)) (l : Int), l < 0 →
      handleSearchDocuments (some ms) (some l) = .results (ms.map formatSearchResult))
    ∧ (∀ (ms : List (Document × ℚ)) (l : Int) (rs : List SearchResultEntry), 0 < l →
      handleSearchDocuments (some ms) (some l) = .results rs → rs.length ≤ l.toNat) := by
  refine ⟨fun fm => rfl, ?_, ?_⟩
  · intro ms l hl
    have hne : l ≠ 0 := by omega
    have hlim : ¬ (-1 : Int) < l := by omega
    simp [handleSearchDocuments, jsNumOr, searchDocuments, fuseApplyLimit, hne, hlim]
  · intro ms l rs hl heq
    have hne : l ≠ 0 := by omega
    have hlim : (-1 : Int) < l := by omega
    simp only [handleSearchDocuments, jsNumOr, searchDocuments, fuseApplyLimit,
      if_neg hne, if_pos hlim] at heq
    cases heq
    calc ((ms.take l.toNat).map formatSearchResult).length
        = (ms.take l.toNat).length := List.length_map _ _
      _ ≤ l.toNat := (ms.length_take_le _)

/-- **C5, witness for the amended theorem** at the six-match list: limit `0`
equals the defaulted call, limit `-1` returns all six results untruncated, and
limit `2` returns at most two. -/
theorem c5_amended_witness :
    handleSearchDocuments (some ms6) (some 0) = handleSearchDocuments (some ms6) none
    ∧ handleSearchDocuments (some ms6) (some (-1)) = .results (ms6.map formatSearchResult)
    ∧ ((ms6.take (2 : Int).toNat).map formatSearchResult).length ≤ (2 : Int).toNat :=
  ⟨c5_amended.1 (some ms6),
   c5_amended.2.1 ms6 (-1) (by norm_num),
   c5_amended.2.2 ms6 2 _ (by norm_num) rfl⟩

/-! ## C6 — the similarity contract -/

/-- Unfolding of `calculateSimilarity` when both token fields are present. -/
theorem calcSim_some_some (a b : Document) (t1 t2 : List String)
    (h1 : a.tokens = some t1) (h2 : b.tokens = some t2) :
    calculateSimilarity a b =
      if (t1.toFinset ∪ t2.toFinset).card = 0 then none
      else some (((t1.toFinset ∩ t2.toFinset).card : ℚ)
        / ((t1.toFinset ∪ t2.toFinset).card : ℚ)) := by
  unfold calculateSimilarity
  rw [h1, h2]

/-- The guard of line 421: a missing first token field returns `0`. -/
theorem calcSim_none_left (a b : Document) (h : a.tokens = none) :
    calculateSimilarity a b = some 0 := by
  unfold calculateSimilarity
  rw [h]

/-- The guard of line 421: a missing second token field returns `0`. -/
theorem calcSim_none_right (a b : Document) (h : b.tokens = none) :
    calculateSimilarity a b = some 0 := by
  unfold calculateSimilarity
  rw [h]
  cases a.tokens <;> rfl

/-- **C6, counterexample.**  The claim says the similarity is `0` whenever
either token set is empty.  When *both* token sets are empty the guard does
not fire (an empty JS array is truthy) and the division is `0/0 = NaN`: the
result is no number at all, in particular not `0` and not a value of
`[0, 1]`. -/
theorem c6_counterexample :
    calculateSimilarity docEmptyTokens1 docEmptyTokens2 = none
    ∧ calculateSimilarity docEmptyTokens1 docEmptyTokens2 ≠ some 0 := by
  refine ⟨rfl, fun h => ?_⟩
  rw [show calculateSimilarity docEmptyTokens1 docEmptyTokens2 = none from rfl] at h
  exact Option.noConfusion h

/-- **C6, amended.**  Whenever the two token sets are not both empty the
similarity is the Jaccard index, a value in `[0, 1]`; it is `0` when a tokens
field is absent, and also when exactly one token set is empty; the
`{alpha, beta}` versus `{alpha, gamma}` example gives `1/3`.  Only the case of
two empty token sets deviates from the claim (it gives `NaN`, see the
counterexample). -/
theorem c6_amended :
    (∀ (a b : Document) (t1 t2 : List String), a.tokens = some t1 → b.tokens = some t2 →
      (t1 ≠ [] ∨ t2 ≠ []) →
      calculateSimilarity a b
        = some (((t1.toFinset ∩ t2.toFinset).card : ℚ) / ((t1.toFinset ∪ t2.toFinset).card : ℚ))
      ∧ ∀ q : ℚ, calculateSimilarity a b = some q → 0 ≤ q ∧ q ≤ 1)
    ∧ (∀ (a b : Document) (t2 : List String), a.tokens = some [] → b.tokens = some t2 →
      t2 ≠ [] → calculateSimilarity a b = some 0)
    ∧ (∀ a b : Document, a.tokens = none → calculateSimilarity a b = some 0)
    ∧ calculateSimilarity docAlphaBeta docAlphaGamma = some (1/3) := by
  have hcard : ∀ (t1 t2 : List String), t1 ≠ [] ∨ t2 ≠ [] →
      (t1.toFinset ∪ t2.toFinset).card ≠ 0 := by
    intro t1 t2 h hc
    rw [Finset.card_eq_zero, Finset.union_eq_empty] at hc
    rcases h with h | h
    · exact h (List.toFinset_eq_empty_iff t1 |>.mp hc.1)
    · exact h (List.toFinset_eq_empty_iff t2 |>.mp hc.2)
  refine ⟨?_, ?_, ?_, rfl⟩
  · intro a b t1 t2 h1 h2 hne
    have hc := hcard t1 t2 hne
    have heq : calculateSimilarity a b
        = some (((t1.toFinset ∩ t2.toFinset).card : ℚ) / ((t1.toFinset ∪ t2.toFinset).card : ℚ)) := by
      rw [calcSim_some_some a b t1 t2 h1 h2, if_neg hc]
    refine ⟨heq, ?_⟩
    intro q hq
    rw [heq] at hq
    have hcpos : (0 : ℚ) < ((t1.toFinset ∪ t2.toFinset).card : ℚ) := by
      exact_mod_cast Nat.pos_of_ne_zero hc
    cases hq
    constructor
    · positivity
    · rw [div_le_one hcpos]
      exact_mod_cast Finset.card_le_card (Finset.inter_subset_union)
  · intro a b t2 h1 h2 hne
    have hc := hcard [] t2 (Or.inr hne)
    rw [calcSim_some_some a b [] t2 h1 h2, if_neg hc]
    simp
  · intro a b h1
    exact calcSim_none_left a b h1

/-- **C6, witness for the amended theorem**: the Jaccard value and bounds at
the `{alpha, beta}`/`{alpha, gamma}` pair, the one-sided-empty case at
`docEmptyTokens1` against `docAlphaBeta`, and the absent-tokens case. -/
theorem c6_amended_witness :
    calculateSimilarity docAlphaBeta docAlphaGamma
      = some (((["alpha", "beta"].toFinset ∩ ["alpha", "gamma"].toFinset).card : ℚ)
          / ((["alpha", "beta"].toFinset ∪ ["alpha", "gamma"].toFinset).card : ℚ))
    ∧ calculateSimilarity docEmptyTokens1 docAlphaBeta = some 0 :=
  ⟨(c6_amended.1 docAlphaBeta docAlphaGamma ["alpha", "beta"] ["alpha", "gamma"]
      rfl rfl (Or.inl (by simp))).1,
   c6_amended.2.1 docEmptyTokens1 docAlphaBeta ["alpha", "beta"] rfl rfl (by simp)⟩

/-! ## C9 — similarity is reflexive-to-one and symmetric -/

/-- **C9.**  `similarity(a, a) = 1` for every document with a non-empty token
set, and `similarity` is symmetric in its two arguments. -/
theorem c9_similarity_self_symm :
    (∀ (a : Document) (ts : List String), a.tokens = some ts → ts ≠ [] →
      calculateSimilarity a a = some 1)
    ∧ ∀ a b : Document, calculateSimilarity a b = calculateSimilarity b a := by
  constructor
  · intro a ts hts hne
    have hc : (ts.toFinset ∪ ts.toFinset).card ≠ 0 := by
      intro hc
      rw [Finset.card_eq_zero, Finset.union_eq_empty] at hc
      exact hne (List.toFinset_eq_empty_iff ts |>.mp hc.1)
    rw [calcSim_some_some a a ts ts hts hts, if_neg hc, Finset.inter_self,
      Finset.union_self]
    rw [Finset.union_self] at hc
    rw [div_self (by exact_mod_cast hc)]
  · intro a b
    rcases ha : a.tokens with _ | t1
    · rw [calcSim_none_left a b ha, calcSim_none_right b a ha]
    · rcases hb : b.tokens with _ | t2
      · rw [calcSim_none_right a b hb, calcSim_none_left b a hb]
      · rw [calcSim_some_some a b t1 t2 ha hb, calcSim_some_some b a t2 t1 hb ha,
          Finset.inter_comm t2.toFinset t1.toFinset,
          Finset.union_comm t2.toFinset t1.toFinset]

/-- **C9, witness**: `similarity(docAlphaBeta, docAlphaBeta) = 1` and symmetry
at the `{alpha, beta}`/`{alpha, gamma}` pair. -/
theorem c9_witness :
    calculateSimilarity docAlphaBeta docAlphaBeta = some 1
    ∧ calculateSimilarity docAlphaBeta docAlphaGamma
      = calculateSimilarity docAlphaGamma docAlphaBeta :=
  ⟨c9_similarity_self_symm.1 docAlphaBeta ["alpha", "beta"] rfl (by simp),
   c9_similarity_self_symm.2 docAlphaBeta docAlphaGamma⟩

/-! ## C10 — search_by_date without bounds returns everything -/

/-- Every `searchByDate` result list is sorted descending by `lastModified`:
the filtered documents go through the stable descending sort before
formatting. -/
theorem searchByDate_sorted (store : List Document) (after before : Option String) :
    (searchByDate store after before).Sorted
      (fun p q => q.lastModified ≤ p.lastModified) := by
  unfold searchByDate
  exact List.Pairwise.map dateEntry (fun a b h => h)
    (List.sorted_insertionSort dateDesc _)

/-- **C10.**  A `search_by_date` call with neither bound returns every stored
document (as a permutation of the store's formatted snapshot — in particular
not an error and not spuriously empty), sorted descending by
`lastModified`. -/
theorem c10_no_bounds_returns_all (store : List Document) :
    List.Perm (searchByDate store none none) (store.map dateEntry)
    ∧ (searchByDate store none none).Sorted
      (fun p q => q.lastModified ≤ p.lastModified) := by
  refine ⟨?_, searchByDate_sorted store none none⟩
  show List.Perm ((((applyBeforeFilter (applyAfterFilter store none) none)).insertionSort
    dateDesc).map dateEntry) (store.map dateEntry)
  exact (List.perm_insertionSort dateDesc store).map dateEntry

/-- **C10, witness** at the three-document January/February/March store. -/
theorem c10_witness :
    List.Perm (searchByDate [docJan, docFeb, docMar] none none)
      ([docJan, docFeb, docMar].map dateEntry)
    ∧ (searchByDate [docJan, docFeb, docMar] none none).Sorted
      (fun p q => q.lastModified ≤ p.lastModified) :=
  c10_no_bounds_returns_all [docJan, docFeb, docMar]

/-! ## C1 — in-flight stale events can overwrite newer store state -/

/-- The watched file's content after the `add` event. -/
def fcA : FileContent := ⟨some "note", [], "content a"⟩

/-- The content written by the first rapid modification. -/
def fcB : FileContent := ⟨some "note", [], "content b"⟩

/-- The content written by the second rapid modification. -/
def fcC : FileContent := ⟨some "note", [], "content c"⟩

/-- A schedule realizable on the Node event loop: the add event is processed
completely; the first modification's handler resolves its read (capturing
`content b`) and then stalls on its `stat` await; the second modification's
handler runs to completion (committing `content c`); finally the first
handler's `stat` resolves and its `Map.set` commits the stale `content b`. -/
def c1Schedule : List WatchAction :=
  [ .modifyFile ⟨fcA, 1⟩, .spawnHandler,
    .stepTask 0, .stepTask 0,
    .modifyFile ⟨fcB, 2⟩, .spawnHandler,
    .stepTask 1,
    .modifyFile ⟨fcC, 3⟩, .spawnHandler,
    .stepTask 2, .stepTask 2,
    .stepTask 1 ]

/-- **C1 (the code violates the claim).**  After adding the file and rapidly
modifying it twice, this schedule leaves the file on disk at the second
modification (`content c`) while the Document Store record for `note.md`
holds the *first* modification's content (`content b`): the stale in-flight
`change` handler overwrote the newer record, because `watchDocuments` runs
`loadDocument` with no per-id sequencing or version check.  The claim
requires the store to reflect the second modification's content, never the
first. -/
theorem c1_stale_overwrite :
    (runWatch "docs" "docs/note.md" ⟨none, [], []⟩ c1Schedule).file = some ⟨fcC, 3⟩
    ∧ (runWatch "docs" "docs/note.md" ⟨none, [], []⟩ c1Schedule).store.map
        (fun d => (d.id, d.content)) = [("note.md", "content b")] := by
  refine ⟨rfl, rfl⟩

/-! ## C8 — search_by_date with well-formed bounds -/

/-- Unfolding of the `after` filter for a non-empty, well-formed date
argument. -/
theorem applyAfterFilter_parsed (docs : List Document) (s : String) (t : Int)
    (hne : s ≠ "") (hp : jsNewDate s = some t) :
    applyAfterFilter docs (some s)
      = docs.filter (fun d => decide (t < d.lastModified)) := by
  simp only [applyAfterFilter, if_neg hne, hp]

/-- Unfolding of the `before` filter for a non-empty, well-formed date
argument. -/
theorem applyBeforeFilter_parsed (docs : List Document) (s : String) (t : Int)
    (hne : s ≠ "") (hp : jsNewDate s = some t) :
    applyBeforeFilter docs (some s)
      = docs.filter (fun d => decide (d.lastModified < t)) := by
  simp only [applyBeforeFilter, if_neg hne, hp]

/-- **C8.**  For well-formed bounds, `searchByDate` returns exactly the
documents strictly inside the requested bounds (as a permutation of the
filtered, formatted snapshot — for the `after`-only, `before`-only, and
two-sided calls), every result list is sorted descending by `lastModified`,
and equal bounds return the empty list. -/
theorem c8_search_by_date (store : List Document) (sa sb : String) (ta tb : Int)
    (hpa : jsNewDate sa = some ta) (hpb : jsNewDate sb = some tb)
    (hna : sa ≠ "") (hnb : sb ≠ "") :
    List.Perm (searchByDate store (some sa) none)
      ((store.filter (fun d => decide (ta < d.lastModified))).map dateEntry)
    ∧ List.Perm (searchByDate store none (some sb))
      ((store.filter (fun d => decide (d.lastModified < tb))).map dateEntry)
    ∧ List.Perm (searchByDate store (some sa) (some sb))
      ((store.filter (fun d =>
          decide (ta < d.lastModified ∧ d.lastModified < tb))).map dateEntry)
    ∧ (∀ a b : Option String, (searchByDate store a b).Sorted
        (fun p q => q.lastModified ≤ p.lastModified))
    ∧ (ta = tb → searchByDate store (some sa) (some sb) = []) := by
  have hA := applyAfterFilter_parsed store sa ta hna hpa
  have hB := applyBeforeFilter_parsed
    (store.filter (fun d => decide (ta < d.lastModified))) sb tb hnb hpb
  have hff : ∀ t : Int,
      (store.filter (fun d => decide (ta < d.lastModified))).filter
          (fun d => decide (d.lastModified < t))
        = store.filter (fun d => decide (ta < d.lastModified ∧ d.lastModified < t)) := by
    intro t
    rw [List.filter_filter]
    refine List.filter_congr (fun d _ => ?_)
    rcases h1 : decide (ta < d.lastModified) <;> rcases h2 : decide (d.lastModified < t) <;>
      simp_all
  refine ⟨?_, ?_, ?_, fun a b => searchByDate_sorted store a b, ?_⟩
  · show List.Perm (((applyBeforeFilter (applyAfterFilter store (some sa))
      none).insertionSort dateDesc).map dateEntry) _
    rw [show applyBeforeFilter (applyAfterFilter store (some sa)) none
      = applyAfterFilter store (some sa) from rfl, hA]
    exact (List.perm_insertionSort dateDesc _).map dateEntry
  · show List.Perm (((applyBeforeFilter (applyAfterFilter store none)
      (some sb)).insertionSort dateDesc).map dateEntry) _
    rw [show applyAfterFilter store none = store from rfl,
      applyBeforeFilter_parsed store sb tb hnb hpb]
    exact (List.perm_insertionSort dateDesc _).map dateEntry
  · show List.Perm (((applyBeforeFilter (applyAfterFilter store (some sa))
      (some sb)).insertionSort dateDesc).map dateEntry) _
    rw [hA, hB, hff tb]
    exact (List.perm_insertionSort dateDesc _).map dateEntry
  · intro hteq
    subst hteq
    show (((applyBeforeFilter (applyAfterFilter store (some sa))
      (some sb)).insertionSort dateDesc).map dateEntry) = []
    rw [hA, applyBeforeFilter_parsed _ sb ta hnb hpb, hff ta]
    have hnil : store.filter
        (fun d => decide (ta < d.lastModified ∧ d.lastModified < ta)) = [] := by
      refine List.filter_eq_nil_iff.mpr (fun d _ => ?_)
      simp only [decide_eq_true_eq, not_and]
      intro h1 h2
      exact absurd (h1.trans h2) (lt_irrefl _)
    rw [hnil]
    rfl

/-- The store used by the C8 witness: three documents modified in January,
February and March 2024. -/
def storeW : List Document := [docJan, docFeb, docMar]

/-- **C8, witness** at the bounds `2024-01-01`/`2024-03-01` (only `docFeb`
falls strictly inside) and at the equal bounds `2024-01-01`/`2024-01-01`
(empty result). -/
theorem c8_witness :
    List.Perm (searchByDate storeW (some "2024-01-01") (some "2024-03-01"))
      ((storeW.filter (fun d => decide ((20240101 : Int) < d.lastModified
        ∧ d.lastModified < (20240301 : Int)))).map dateEntry)
    ∧ searchByDate storeW (some "2024-01-01") (some "2024-01-01") = [] :=
  ⟨(c8_search_by_date storeW "2024-01-01" "2024-03-01" 20240101 20240301
      rfl rfl (by decide) (by decide)).2.2.1,
   (c8_search_by_date storeW "2024-01-01" "2024-01-01" 20240101 20240101
      rfl rfl (by decide) (by decide)).2.2.2.2 rfl⟩

/-! ## C7 — findSimilar: exclusion, bound, ranking, stable ties -/

/-- Descending-by-score, read on the actual rational values: whenever two
entries both carry a real (non-`NaN`) score, the later one is not larger. -/
def descBySome (a b : SimilarityEntry) : Prop :=
  ∀ x y : ℚ, a.score = some x → b.score = some y → y ≤ x

/-- The comparator relation is total. -/
theorem scoreLEb_total (a b : Option ℚ) :
    scoreLEb a b = true ∨ scoreLEb b a = true := by
  rcases a with _ | x <;> rcases b with _ | y
  · left; rfl
  · left; rfl
  · left; rfl
  · simp only [scoreLEb, decide_eq_true_eq]
    exact le_total y x

/-- The comparator relation is transitive across a middle entry carrying a
real score. -/
theorem entRel_trans_mid {a b c : SimilarityEntry} (hb : b.score.isSome)
    (h1 : entRel a b) (h2 : entRel b c) : entRel a c := by
  rcases hbs : b.score with _ | y
  · rw [hbs] at hb
    exact absurd hb (by simp)
  · rcases has : a.score with _ | x
    · simp only [entRel, has, scoreLEb]
    · rcases hcs : c.score with _ | z
      · simp only [entRel, has, hcs, scoreLEb]
      · simp only [entRel, has, hbs, hcs, scoreLEb, decide_eq_true_eq] at h1 h2 ⊢
        exact le_trans h2 h1

/-- A list all of whose members satisfy `P` is pairwise related by any
relation that `P` guarantees on both sides. -/
theorem pairwise_of_mem_prop {α : Type} (P : α → Prop) (R : α → α → Prop) :
    ∀ l : List α, (∀ e ∈ l, P e) → (∀ a b, P a → P b → R a b) → l.Pairwise R
  | [], _, _ => List.Pairwise.nil
  | a :: l, hP, hR =>
    List.Pairwise.cons
      (fun b hb => hR a b (hP a (List.mem_cons_self a l)) (hP b (List.mem_cons_of_mem a hb)))
      (pairwise_of_mem_prop P R l (fun e he => hP e (List.mem_cons_of_mem a he)) hR)

/-- Inserting an entry with a real score into a sorted list of entries with
real scores keeps the list sorted (the comparator is transitive on such
lists). -/
theorem sorted_orderedInsert_entRel (a : SimilarityEntry) :
    ∀ l : List SimilarityEntry, (∀ e ∈ l, e.score.isSome) → l.Sorted entRel →
      (List.orderedInsert entRel a l).Sorted entRel
  | [], _, _ => List.sorted_singleton a
  | b :: l, hl, h => by
    by_cases hab : entRel a b
    · simp only [List.orderedInsert, if_pos hab]
      refine List.sorted_cons.mpr ⟨?_, h⟩
      intro c hc
      rcases List.mem_cons.mp hc with rfl | hc
      · exact hab
      · exact entRel_trans_mid (hl b (List.mem_cons_self b l)) hab
          (List.rel_of_sorted_cons h c hc)
    · simp only [List.orderedInsert, if_neg hab]
      refine List.sorted_cons.mpr ⟨?_, ?_⟩
      · intro c hc
        rcases (List.mem_orderedInsert entRel).mp hc with hce | hc
        · rw [hce]
          exact (scoreLEb_total a.score b.score).resolve_left hab
        · exact List.rel_of_sorted_cons h c hc
      · exact sorted_orderedInsert_entRel a l
          (fun e he => hl e (List.mem_cons_of_mem b he)) (List.sorted_cons.mp h).2

/-- The stable sort of a list of entries with real scores is sorted by the
comparator. -/
theorem sorted_insertionSort_entRel :
    ∀ l : List SimilarityEntry, (∀ e ∈ l, e.score.isSome) →
      (l.insertionSort entRel).Sorted entRel
  | [], _ => List.sorted_nil
  | a :: l, hl => by
    show (List.orderedInsert entRel a (l.insertionSort entRel)).Sorted entRel
    refine sorted_orderedInsert_entRel a _ ?_
      (sorted_insertionSort_entRel l (fun e he => hl e (List.mem_cons_of_mem a he)))
    intro e he
    exact hl e (List.mem_cons_of_mem a
      ((List.perm_insertionSort entRel l).mem_iff.mp he))

/-- The comparator implies the descending reading on real scores. -/
theorem entRel_imp_descBySome {a b : SimilarityEntry} (h : entRel a b) :
    descBySome a b := by
  intro x y hx hy
  simp only [entRel, hx, hy, scoreLEb, decide_eq_true_eq] at h
  exact h

/-- A target with a non-empty token list gives every candidate a real
(non-`NaN`) score. -/
theorem calcSim_isSome_of_cons (target d : Document) (t : String) (ts : List String)
    (htok : target.tokens = some (t :: ts)) :
    (calculateSimilarity target d).isSome := by
  rcases hd : d.tokens with _ | t2
  · rw [calcSim_none_right target d hd]
    rfl
  · rw [calcSim_some_some target d (t :: ts) t2 htok hd]
    have hmem : t ∈ (t :: ts).toFinset ∪ t2.toFinset := by
      simp
    rw [if_neg (Finset.card_ne_zero_of_mem hmem)]
    rfl

/-- A target with no tokens, or an empty token list, gives every candidate a
score of `0` or `NaN`. -/
theorem calcSim_degenerate (target d : Document)
    (h : target.tokens = none ∨ target.tokens = some []) :
    calculateSimilarity target d = some 0 ∨ calculateSimilarity target d = none := by
  rcases h with h | h
  · exact Or.inl (calcSim_none_left target d h)
  · rcases hd : d.tokens with _ | t2
    · exact Or.inl (calcSim_none_right target d hd)
    · rw [calcSim_some_some target d [] t2 h hd]
      by_cases hc : (([] : List String).toFinset ∪ t2.toFinset).card = 0
      · rw [if_pos hc]
        exact Or.inr rfl
      · rw [if_neg hc]
        refine Or.inl ?_
        simp

/-- **C7.**  For every stored target id and positive limit, `findSimilar`
returns a result list that never contains the target id, has at most `limit`
entries, is ordered descending by similarity score (read on the real scores),
and breaks ties by the stable Store iteration order: for each score value,
the tied returned entries form a sublist of the candidate list in Store
order. -/
theorem c7_find_similar (store : List Document) (id : String) (limit : Int)
    (target : Document)
    (hfind : store.find? (fun d => decide (d.id = id)) = some target)
    (hlim : 0 < limit) :
    ∃ entries, findSimilarDocuments store id limit = .results entries
      ∧ (∀ e ∈ entries, e.id ≠ id)
      ∧ entries.length ≤ limit.toNat
      ∧ entries.Pairwise descBySome
      ∧ ∀ q : ℚ, List.Sublist
          (entries.filter (fun e => decide (e.score = some q)))
          ((scoresFor store target id).filter (fun e => decide (e.score = some q))) := by
  have heq : findSimilarDocuments store id limit
      = .results (jsSliceTo ((scoresFor store target id).insertionSort entRel) limit) := by
    unfold findSimilarDocuments
    rw [hfind]
  have hslice : jsSliceTo ((scoresFor store target id).insertionSort entRel) limit
      = ((scoresFor store target id).insertionSort entRel).take limit.toNat := by
    unfold jsSliceTo
    rw [if_pos (le_of_lt hlim)]
  have hmem_scores : ∀ e ∈ scoresFor store target id,
      e.id ≠ id ∧ ∃ d, d ∈ store ∧ e.score = calculateSimilarity target d := by
    intro e he
    rcases List.mem_map.mp he with ⟨d, hd, rfl⟩
    have hdf := List.mem_filter.mp hd
    exact ⟨of_decide_eq_true hdf.2, d, hdf.1, rfl⟩
  have hmem_entries : ∀ e ∈ jsSliceTo ((scoresFor store target id).insertionSort entRel) limit,
      e ∈ scoresFor store target id := by
    intro e he
    rw [hslice] at he
    exact (List.perm_insertionSort entRel _).mem_iff.mp
      ((List.take_sublist _ _).subset he)
  refine ⟨_, heq, ?_, ?_, ?_, ?_⟩
  · intro e he
    exact (hmem_scores e (hmem_entries e he)).1
  · rw [hslice]
    exact List.length_take_le _ _
  · have hsorted_pairwise :
        (((scoresFor store target id).insertionSort entRel)).Pairwise descBySome := by
      rcases htok : target.tokens with _ | (_ | ⟨t, ts⟩)
      · refine pairwise_of_mem_prop
          (fun e => e.score = some 0 ∨ e.score = none) descBySome _ ?_ ?_
        · intro e he
          rcases hmem_scores e
            ((List.perm_insertionSort entRel _).mem_iff.mp he) with ⟨_, d, _, hs⟩
          rw [hs]
          exact calcSim_degenerate target d (Or.inl htok)
        · intro a b ha hb x y hx hy
          have hx0 : x = 0 := by
            rcases ha with h | h
            · rw [hx] at h
              exact Option.some.inj h
            · rw [hx] at h
              exact absurd h (by simp)
          have hy0 : y = 0 := by
            rcases hb with h | h
            · rw [hy] at h
              exact Option.some.inj h
            · rw [hy] at h
              exact absurd h (by simp)
          rw [hx0, hy0]
      · refine pairwise_of_mem_prop
          (fun e => e.score = some 0 ∨ e.score = none) descBySome _ ?_ ?_
        · intro e he
          rcases hmem_scores e
            ((List.perm_insertionSort entRel _).mem_iff.mp he) with ⟨_, d, _, hs⟩
          rw [hs]
          exact calcSim_degenerate target d (Or.inr htok)
        · intro a b ha hb x y hx hy
          have hx0 : x = 0 := by
            rcases ha with h | h
            · rw [hx] at h
              exact Option.some.inj h
            · rw [hx] at h
              exact absurd h (by simp)
          have hy0 : y = 0 := by
            rcases hb with h | h
            · rw [hy] at h
              exact Option.some.inj h
            · rw [hy] at h
              exact absurd h (by simp)
          rw [hx0, hy0]
      · refine List.Pairwise.imp (fun h => entRel_imp_descBySome h) ?_
        refine sorted_insertionSort_entRel _ ?_
        intro e he
        rcases hmem_scores e he with ⟨_, d, _, hs⟩
        rw [hs]
        exact calcSim_isSome_of_cons target d t ts htok
    rw [hslice]
    exact List.Pairwise.sublist (List.take_sublist _ _) hsorted_pairwise
  · intro q
    set p : SimilarityEntry → Bool := fun e => decide (e.score = some q) with hp
    have hstable : ((scoresFor store target id).insertionSort entRel).filter p
        = (scoresFor store target id).filter p := by
      set c := (scoresFor store target id).filter p with hc
      have hcpair : c.Pairwise entRel := by
        refine pairwise_of_mem_prop (fun e => p e = true) entRel c
          (fun e he => (List.mem_filter.mp he).2) ?_
        intro a b ha hb
        have ha' : a.score = some q := of_decide_eq_true ha
        have hb' : b.score = some q := of_decide_eq_true hb
        simp only [entRel, ha', hb', scoreLEb, decide_eq_true_eq]
        exact le_refl q
      have hsub : List.Sublist c ((scoresFor store target id).insertionSort entRel) :=
        List.sublist_insertionSort hcpair (List.filter_sublist _)
      have hsub2 : List.Sublist c
          (((scoresFor store target id).insertionSort entRel).filter p) := by
        have hcf : c.filter p = c :=
          List.filter_eq_self.mpr (fun e he => (List.mem_filter.mp he).2)
        have hf := hsub.filter p
        rw [hcf] at hf
        exact hf
      have hperm : List.Perm
          (((scoresFor store target id).insertionSort entRel).filter p) c :=
        (List.perm_insertionSort entRel _).filter p
      exact (hsub2.eq_of_length hperm.length_eq.symm).symm
    rw [hslice]
    exact hstable ▸ ((List.take_sublist _ _).filter p)

/-- **C7, witness** at the three-document store with target `ab.md` and limit
`2`. -/
theorem c7_witness :
    ∃ entries, findSimilarDocuments [docAlphaBeta, docAlphaGamma, docJan] "ab.md" 2
        = .results entries
      ∧ (∀ e ∈ entries, e.id ≠ "ab.md")
      ∧ entries.length ≤ (2 : Int).toNat
      ∧ entries.Pairwise descBySome
      ∧ ∀ q : ℚ, List.Sublist
          (entries.filter (fun e => decide (e.score = some q)))
          ((scoresFor [docAlphaBeta, docAlphaGamma, docJan] docAlphaBeta "ab.md").filter
            (fun e => decide (e.score = some q))) :=
  c7_find_similar [docAlphaBeta, docAlphaGamma, docJan] "ab.md" 2 docAlphaBeta rfl
    (by norm_num)

end MarkdownBrain
